import Mathlib

/-!
# Health-chain-stellar: verification of the blood-supply-chain contracts

Shallow embedding of the Soroban contracts of this repository:

* `src/contracts/src/payments.rs` — payment validation;
* `src/lifebank-soroban/contracts/inventory/src/{types,lib}.rs` — blood-unit
  lifecycle state machine, registration, status updates, batch updates;
* `src/lifebank-soroban/contracts/temperature/src/{types,storage,lib}.rs` —
  paginated temperature time-series store with write-time threshold evaluation.

Addresses and strings are modelled as natural-number identifiers; the Soroban
key-value storage tiers are modelled as association lists inside an explicit
state record that every operation threads.  Machine integers (`u32`, `u64`,
`i32`, `i128`) are modelled as `Nat`/`Int`: the contracts only compare and add
small quantities, so no overflow wrapping is observable in the modelled paths.
-/

/-! ## Association-list key-value store

The Soroban `env.storage()` substrate offers `get`/`set` keyed by a tagged key
type.  We model each key family as an association list with distinct keys;
`aset` replaces in place, preserving key order and key distinctness. -/

def alookup {α β : Type} [DecidableEq α] : List (α × β) → α → Option β
  | [], _ => none
  | kv :: rest, k => if kv.1 = k then some kv.2 else alookup rest k

def aset {α β : Type} [DecidableEq α] : List (α × β) → α → β → List (α × β)
  | [], k, v => [(k, v)]
  | kv :: rest, k, v => if kv.1 = k then (k, v) :: rest else kv :: aset rest k v

theorem alookup_aset_self {α β : Type} [DecidableEq α]
    (l : List (α × β)) (k : α) (v : β) : alookup (aset l k v) k = some v := by
  induction l with
  | nil => simp [aset, alookup]
  | cons kv rest ih =>
    by_cases h : kv.1 = k
    · simp [aset, alookup, h]
    · simp [aset, alookup, h, ih]

theorem alookup_aset_ne {α β : Type} [DecidableEq α]
    (l : List (α × β)) (k k' : α) (v : β) (hne : k ≠ k') :
    alookup (aset l k v) k' = alookup l k' := by
  induction l with
  | nil => simp [aset, alookup, hne]
  | cons kv rest ih =>
    by_cases h : kv.1 = k
    · subst h
      simp [aset, alookup, hne]
    · simp only [aset, if_neg h]
      by_cases h' : kv.1 = k'
      · simp [alookup, h']
      · simp [alookup, h', ih]

/-- Decidable equality for `Except` results, so that concrete contract runs
can be checked by `decide`. -/
def Except.decEq {ε α : Type} [DecidableEq ε] [DecidableEq α] :
    (a b : Except ε α) → Decidable (a = b)
  | .error e, .error f =>
    if h : e = f then .isTrue (h ▸ rfl)
    else .isFalse (fun hc => h (Except.error.inj hc))
  | .error _, .ok _ => .isFalse (fun hc => Except.noConfusion hc)
  | .ok _, .error _ => .isFalse (fun hc => Except.noConfusion hc)
  | .ok x, .ok y =>
    if h : x = y then .isTrue (h ▸ rfl)
    else .isFalse (fun hc => h (Except.ok.inj hc))

instance {ε α : Type} [DecidableEq ε] [DecidableEq α] : DecidableEq (Except ε α) :=
  Except.decEq

theorem alookup_mem_keys {α β : Type} [DecidableEq α]
    (l : List (α × β)) (k : α) (v : β) (h : alookup l k = some v) :
    k ∈ l.map Prod.fst := by
  induction l with
  | nil => simp [alookup] at h
  | cons kv rest ih =>
    by_cases hk : kv.1 = k
    · simp [hk]
    · simp only [alookup, if_neg hk] at h
      simp [ih h]

/-! ## Payments (`src/contracts/src/payments.rs`)

Addresses are modelled as `Nat`; the `i128` amount as `Int`. -/

inductive PaymentStatus
  | Pending
  | Escrowed
  | Completed
  | Refunded
  | Cancelled
deriving DecidableEq, Repr

inductive PaymentError
  | InvalidAmount
  | SamePayerPayee
  | InvalidFee
  | InvalidAsset
  | FeesExceedAmount
  | InvalidTransition
  | EscrowNotReleasable
deriving DecidableEq, Repr

structure Payment where
  id : Nat
  request_id : Nat
  payer : Nat
  payee : Nat
  amount : Int
  asset : Nat
  status : PaymentStatus
  escrow_released_at : Option Nat
deriving DecidableEq, Repr

/-- `Payment::validate` from `payments.rs`: amount positive, payer ≠ payee,
asset distinct from payer and payee, with one specific error per clause,
checked in that order. -/
def Payment.validate (p : Payment) : Except PaymentError Unit :=
  if p.amount ≤ 0 then .error .InvalidAmount
  else if p.payer = p.payee then .error .SamePayerPayee
  else if p.asset = p.payer ∨ p.asset = p.payee then .error .InvalidAsset
  else .ok ()

/-! ## Inventory: blood types, statuses, lifecycle state machine
(`src/lifebank-soroban/contracts/inventory/src/types.rs`) -/

inductive BloodType
  | APositive
  | ANegative
  | BPositive
  | BNegative
  | ABPositive
  | ABNegative
  | OPositive
  | ONegative
deriving DecidableEq, Repr

inductive BloodStatus
  | Available
  | Reserved
  | InTransit
  | Delivered
  | Expired
deriving DecidableEq, Repr, Fintype

/-- `is_valid_transition` from `types.rs`: the pure lifecycle decision
function, a `matches!` over exactly seven ordered pairs. -/
def is_valid_transition (source target : BloodStatus) : Bool :=
  match source, target with
  | .Available, .Reserved => true
  | .Available, .Expired => true
  | .Reserved, .InTransit => true
  | .Reserved, .Available => true
  | .Reserved, .Expired => true
  | .InTransit, .Delivered => true
  | .InTransit, .Expired => true
  | _, _ => false

/-- All five statuses. -/
def allStatuses : List BloodStatus :=
  [.Available, .Reserved, .InTransit, .Delivered, .Expired]

/-- All 25 ordered pairs of statuses. -/
def allStatusPairs : List (BloodStatus × BloodStatus) :=
  allStatuses.flatMap (fun s => allStatuses.map (fun t => (s, t)))

/-- The seven transitions listed in the lifecycle table of `types.rs`. -/
def listedTransitions : List (BloodStatus × BloodStatus) :=
  [(.Available, .Reserved), (.Available, .Expired),
   (.Reserved, .InTransit), (.Reserved, .Available), (.Reserved, .Expired),
   (.InTransit, .Delivered), (.InTransit, .Expired)]

/-! ## Inventory: blood unit record and contract state
(`src/lifebank-soroban/contracts/inventory/src/{types,lib}.rs`)

`Address` is modelled as `Nat`; `String` reasons and metadata strings as `Nat`
identifiers; `Map<Symbol, String>` metadata as an association list. -/

inductive ContractError
  | AlreadyInitialized
  | NotInitialized
  | Unauthorized
  | InvalidAmount
  | InvalidAddress
  | InvalidInput
  | InvalidBloodType
  | InvalidStatus
  | InvalidTimestamp
  | InvalidQuantity
  | AlreadyExists
  | NotFound
  | Expired
  | BloodUnitExpired
  | InsufficientBalance
  | InsufficientPermissions
  | BloodUnitNotAvailable
  | InvalidStatusTransition
  | DuplicateBloodUnit
  | NotAuthorizedBloodBank
deriving DecidableEq, Repr

structure BloodUnit where
  id : Nat
  blood_type : BloodType
  quantity_ml : Nat
  bank_id : Nat
  donor_id : Option Nat
  donation_timestamp : Nat
  expiration_timestamp : Nat
  status : BloodStatus
  metadata : List (Nat × Nat)
deriving DecidableEq, Repr

/-- `BloodUnit::validate` from `types.rs`. -/
def BloodUnit.validate (u : BloodUnit) (current_time : Nat) :
    Except ContractError Unit :=
  if u.quantity_ml < 100 ∨ u.quantity_ml > 600 then .error .InvalidQuantity
  else if u.expiration_timestamp ≤ u.donation_timestamp then .error .InvalidTimestamp
  else if u.donation_timestamp > current_time + 3600 then .error .InvalidTimestamp
  else .ok ()

/-- `BloodUnit::is_expired` from `types.rs`: `current_time >= expiration_timestamp`. -/
def BloodUnit.is_expired (u : BloodUnit) (current_time : Nat) : Bool :=
  u.expiration_timestamp ≤ current_time

/-- Historical record of a status change (`StatusChangeHistory` in `types.rs`). -/
structure StatusChangeHistory where
  id : Nat
  blood_unit_id : Nat
  from_status : BloodStatus
  to_status : BloodStatus
  authorized_by : Nat
  changed_at : Nat
  reason : Option Nat
deriving DecidableEq, Repr

/-- Events published through `env.events()` by the inventory contract
(`events.rs`).  The host rolls failed invocations' events back, but the
diagnostic invalid-transition event is emitted before the error return, so we
track the emitted-event list separately from persisted state. -/
inductive InvEvent
  | bloodRegistered (blood_unit_id : Nat) (bank_id : Nat) (blood_type : BloodType)
      (quantity_ml : Nat) (expiration_timestamp : Nat) (registered_at : Nat)
  | statusChanged (blood_unit_id : Nat) (from_status to_status : BloodStatus)
      (authorized_by : Nat) (changed_at : Nat) (reason : Option Nat)
  | invalidTransition (blood_unit_id : Nat) (from_status to_status : BloodStatus)
deriving DecidableEq, Repr

/-- Persisted state of the inventory contract: one field per `DataKey` family
of `types.rs`.  `admin = none` models an uninitialized contract. -/
structure InvState where
  admin : Option Nat
  authorized_banks : List Nat
  counter : Nat
  units : List (Nat × BloodUnit)
  typeIndex : List (BloodType × List Nat)
  bankIndex : List (Nat × List Nat)
  statusIndex : List (BloodStatus × List Nat)
  donorIndex : List (Nat × List Nat)
  history : List (Nat × List StatusChangeHistory)
  historyCounter : Nat
  changeCount : List (Nat × Nat)
deriving DecidableEq, Repr

/-- Modelled from the spec: the inventory `storage` module is not under `src/`
(only its callers are).  Spec §4.1: "expiration = donation + fixed shelf-life
window"; the shelf-life constant is 42 days (`BLOOD_SHELF_LIFE_DAYS`), the
standard whole-blood shelf life named throughout the spec and doc comments. -/
def BLOOD_SHELF_LIFE_DAYS : Nat := 42

/-- Modelled from the spec: seconds per day (`SECONDS_PER_DAY` in the missing
inventory `storage` module). -/
def SECONDS_PER_DAY : Nat := 86400

/-- Modelled from the spec: `storage::get_blood_unit`, a pure lookup of the
unit record by ID. -/
def get_blood_unit_store (s : InvState) (unit_id : Nat) : Option BloodUnit :=
  alookup s.units unit_id

/-- Modelled from the spec: `storage::set_blood_unit` persists the record
under its ID. -/
def set_blood_unit (s : InvState) (u : BloodUnit) : InvState :=
  { s with units := aset s.units u.id u }

/-- Modelled from the spec: `storage::blood_unit_exists`. -/
def blood_unit_exists (s : InvState) (unit_id : Nat) : Bool :=
  (alookup s.units unit_id).isSome

/-- Modelled from the spec: `storage::increment_blood_unit_id` atomically
reads, increments and stores the monotonic ID counter, returning the fresh
ID. -/
def increment_blood_unit_id (s : InvState) : Nat × InvState :=
  (s.counter + 1, { s with counter := s.counter + 1 })

/-- Modelled from the spec: `storage::is_authorized_bank`. -/
def is_authorized_bank (s : InvState) (bank : Nat) : Bool :=
  s.authorized_banks.contains bank

/-- Modelled from the spec: append a unit ID to one secondary index sequence
(the four indexes are append-only, §3). -/
def indexAppend {α : Type} [DecidableEq α]
    (idx : List (α × List Nat)) (k : α) (id : Nat) : List (α × List Nat) :=
  aset idx k ((alookup idx k).getD [] ++ [id])

/-- Modelled from the spec: `storage::add_to_blood_type_index` and its three
siblings, applied together after a successful registration. -/
def add_to_indexes (s : InvState) (u : BloodUnit) : InvState :=
  let s := { s with typeIndex := indexAppend s.typeIndex u.blood_type u.id }
  let s := { s with bankIndex := indexAppend s.bankIndex u.bank_id u.id }
  let s := { s with statusIndex := indexAppend s.statusIndex u.status u.id }
  match u.donor_id with
  | none => s
  | some d => { s with donorIndex := indexAppend s.donorIndex d u.id }

/-- Modelled from the spec (§4.3 Audit Trail): appends a history entry with a
freshly allocated sequential history ID and the current clock, and
independently increments the per-unit change counter. -/
def record_status_change (s : InvState) (now unit_id : Nat)
    (from_status to_status : BloodStatus) (authorized_by : Nat)
    (reason : Option Nat) : InvState :=
  let hid := s.historyCounter + 1
  let entry : StatusChangeHistory :=
    ⟨hid, unit_id, from_status, to_status, authorized_by, now, reason⟩
  { s with
    historyCounter := hid
    history := aset s.history unit_id ((alookup s.history unit_id).getD [] ++ [entry])
    changeCount := aset s.changeCount unit_id ((alookup s.changeCount unit_id).getD 0 + 1) }

/-- Modelled from the spec: `validation::validate_quantity` (the function is
called from `lib.rs` but not present under `src/`); spec §3/§4.1 bound the
quantity to the 100–600 ml range with error `InvalidQuantity`. -/
def validate_quantity (quantity_ml : Nat) : Except ContractError Unit :=
  if quantity_ml < 100 ∨ quantity_ml > 600 then .error .InvalidQuantity
  else .ok ()

/-! ## Inventory contract operations (`lib.rs`)

Each operation threads the state explicitly and returns
`state × emitted events × result`.  `now` stands for
`env.ledger().timestamp()`, read once per invocation.  `require_auth` is
host-verified cryptographic authentication of the stated principal and is
outside the embedded logic (spec §6). -/

/-- `register_blood` from `lib.rs`: auth, initialization and bank checks,
quantity validation, counter-based ID with a defensive existence guard,
ledger-clock timestamps, record validation, persist, index, emit, return ID. -/
def register_blood (s : InvState) (now bank_id : Nat) (blood_type : BloodType)
    (quantity_ml : Nat) (donor_id : Option Nat) :
    InvState × List InvEvent × Except ContractError Nat :=
  if s.admin.isNone then (s, [], .error .NotInitialized)
  else if ¬ is_authorized_bank s bank_id then (s, [], .error .NotAuthorizedBloodBank)
  else match validate_quantity quantity_ml with
  | .error e => (s, [], .error e)
  | .ok () =>
    let (blood_unit_id, s) := increment_blood_unit_id s
    if blood_unit_exists s blood_unit_id then (s, [], .error .DuplicateBloodUnit)
    else
      let current_time := now
      let expiration_timestamp :=
        current_time + BLOOD_SHELF_LIFE_DAYS * SECONDS_PER_DAY
      let blood_unit : BloodUnit :=
        { id := blood_unit_id
          blood_type := blood_type
          quantity_ml := quantity_ml
          bank_id := bank_id
          donor_id := donor_id
          donation_timestamp := current_time
          expiration_timestamp := expiration_timestamp
          status := .Available
          metadata := [] }
      match blood_unit.validate current_time with
      | .error e => (s, [], .error e)
      | .ok () =>
        let s := set_blood_unit s blood_unit
        let s := add_to_indexes s blood_unit
        (s, [InvEvent.bloodRegistered blood_unit_id bank_id blood_type quantity_ml
              expiration_timestamp now], .ok blood_unit_id)

/-- `get_blood_unit` from `lib.rs`: pure lookup, `NotFound` if absent. -/
def get_blood_unit (s : InvState) (blood_unit_id : Nat) :
    Except ContractError BloodUnit :=
  match get_blood_unit_store s blood_unit_id with
  | none => .error .NotFound
  | some u => .ok u

/-- `update_status` from `lib.rs`: admin check, lookup, clock-based expiry
check, transition-table check (emitting the diagnostic event on rejection),
then persist, audit, emit.  Modelled from the spec in one corner:
`storage::get_admin` on an uninitialized contract is a host trap in the
source; any non-admin caller (including on an uninitialized contract) is
rejected with `Unauthorized` here. -/
def update_status (s : InvState) (now unit_id : Nat) (new_status : BloodStatus)
    (authorized_by : Nat) (reason : Option Nat) :
    InvState × List InvEvent × Except ContractError BloodUnit :=
  if s.admin ≠ some authorized_by then (s, [], .error .Unauthorized)
  else match get_blood_unit_store s unit_id with
  | none => (s, [], .error .NotFound)
  | some blood_unit =>
    if blood_unit.is_expired now then (s, [], .error .BloodUnitExpired)
    else
      let old_status := blood_unit.status
      if ¬ is_valid_transition old_status new_status then
        (s, [InvEvent.invalidTransition unit_id old_status new_status],
         .error .InvalidStatusTransition)
      else
        let blood_unit' := { blood_unit with status := new_status }
        let s := set_blood_unit s blood_unit'
        let s := record_status_change s now unit_id old_status new_status
          authorized_by reason
        (s, [InvEvent.statusChanged unit_id old_status new_status authorized_by
              now reason], .ok blood_unit')

/-- The per-unit loop body of `batch_update_status` from `lib.rs`: in-memory
writes accumulate as the loop progresses, and the first failing unit's error
aborts the loop. -/
def batch_update_loop (s : InvState) (now : Nat) (unit_ids : List Nat)
    (new_status : BloodStatus) (authorized_by : Nat) (reason : Option Nat)
    (updated_count : Nat) (evts : List InvEvent) :
    InvState × List InvEvent × Except ContractError Nat :=
  match unit_ids with
  | [] => (s, evts, .ok updated_count)
  | unit_id :: rest =>
    match get_blood_unit_store s unit_id with
    | none => (s, evts, .error .NotFound)
    | some blood_unit =>
      if blood_unit.is_expired now then (s, evts, .error .BloodUnitExpired)
      else
        let old_status := blood_unit.status
        if ¬ is_valid_transition old_status new_status then
          (s, evts ++ [InvEvent.invalidTransition unit_id old_status new_status],
           .error .InvalidStatusTransition)
        else
          let blood_unit' := { blood_unit with status := new_status }
          let s := set_blood_unit s blood_unit'
          let s := record_status_change s now unit_id old_status new_status
            authorized_by reason
          batch_update_loop s now rest new_status authorized_by reason
            (updated_count + 1)
            (evts ++ [InvEvent.statusChanged unit_id old_status new_status
              authorized_by now reason])

/-- `batch_update_status` from `lib.rs`, at invocation level.  Modelled from
the spec (§4.9/§5): the enclosing host applies each invocation atomically —
on an error return every storage write of the invocation is rolled back, so
externally no state change is observed; the admin check and the sequential
loop itself are the code of `lib.rs`. -/
def batch_update_status (s : InvState) (now : Nat) (unit_ids : List Nat)
    (new_status : BloodStatus) (authorized_by : Nat) (reason : Option Nat) :
    InvState × List InvEvent × Except ContractError Nat :=
  if s.admin ≠ some authorized_by then (s, [], .error .Unauthorized)
  else
    match batch_update_loop s now unit_ids new_status authorized_by reason 0 [] with
    | (s', evts, .ok n) => (s', evts, .ok n)
    | (_, evts, .error e) => (s, evts, .error e)

/-! ## Temperature contract
(`src/lifebank-soroban/contracts/temperature/src/{types,storage,lib}.rs`)

Temperatures (`i32`, fixed-point hundredths) are modelled as `Int`;
timestamps (`u64`) as `Nat`. -/

inductive TempError
  | Unauthorized
  | UnitNotFound
  | ThresholdNotFound
  | InvalidThreshold
  | AlreadyInitialized
deriving DecidableEq, Repr

structure TemperatureReading where
  temperature_celsius_x100 : Int
  timestamp : Nat
  is_violation : Bool
deriving DecidableEq, Repr

/-- `TemperatureReading::default()`: the zero-valued placeholder entry. -/
def TemperatureReading.placeholder : TemperatureReading := ⟨0, 0, false⟩

structure TemperatureThreshold where
  min_celsius_x100 : Int
  max_celsius_x100 : Int
deriving DecidableEq, Repr

/-- `PAGE_SIZE` from `lib.rs`. -/
def PAGE_SIZE : Nat := 20

/-- Persisted state of the temperature contract: one field per `DataKey`
family of `types.rs`.  Page contents and page length counters are keyed by
`(unit_id, page)`. -/
structure TempState where
  admin : Nat
  thresholds : List (Nat × TemperatureThreshold)
  pages : List ((Nat × Nat) × List TemperatureReading)
  pageLens : List ((Nat × Nat) × Nat)
deriving DecidableEq, Repr

/-- `storage::get_threshold`. -/
def get_threshold (s : TempState) (unit_id : Nat) : Option TemperatureThreshold :=
  alookup s.thresholds unit_id

/-- `storage::get_temp_page`: empty vector if the page was never written. -/
def get_temp_page (s : TempState) (unit_id page : Nat) : List TemperatureReading :=
  (alookup s.pages (unit_id, page)).getD []

/-- `storage::set_temp_page`. -/
def set_temp_page (s : TempState) (unit_id page : Nat)
    (readings : List TemperatureReading) : TempState :=
  { s with pages := aset s.pages (unit_id, page) readings }

/-- `storage::get_temp_page_len`: 0 if never written. -/
def get_temp_page_len (s : TempState) (unit_id page : Nat) : Nat :=
  (alookup s.pageLens (unit_id, page)).getD 0

/-- `storage::set_temp_page_len`. -/
def set_temp_page_len (s : TempState) (unit_id page len : Nat) : TempState :=
  { s with pageLens := aset s.pageLens (unit_id, page) len }

/-- `set_threshold` from `lib.rs`: admin check, `min >= max` check, store. -/
def set_threshold (s : TempState) (admin unit_id : Nat)
    (min_celsius_x100 max_celsius_x100 : Int) : Except TempError TempState :=
  if admin ≠ s.admin then .error .Unauthorized
  else if max_celsius_x100 ≤ min_celsius_x100 then .error .InvalidThreshold
  else .ok { s with
    thresholds := aset s.thresholds unit_id
      ⟨min_celsius_x100, max_celsius_x100⟩ }

/-- The page-selection loop of `log_reading`: starting from page 0, stop at a
page whose stored length is 0 (when past page 0, write position 0) or below
`PAGE_SIZE` (write position = stored length); otherwise advance.  The Rust
loop is unbounded; here it carries fuel, and `findWritePos_total` below shows
the fuel used by `log_reading` always suffices. -/
def findWritePos (lenOf : Nat → Nat) : Nat → Nat → Option (Nat × Nat)
  | 0, _ => none
  | fuel + 1, page_num =>
    let len := lenOf page_num
    if len = 0 ∧ 0 < page_num then some (page_num, 0)
    else if len < PAGE_SIZE then some (page_num, len)
    else findWritePos lenOf fuel (page_num + 1)

/-- The write-position scan as `log_reading` invokes it: fuel is one more
than the number of stored length counters, which `findWritePos_total` below
proves always sufficient, so the `(0, 0)` fallback is never used. -/
def findWritePosD (s : TempState) (unit_id : Nat) : Nat × Nat :=
  (findWritePos (get_temp_page_len s unit_id) (s.pageLens.length + 1) 0).getD (0, 0)

/-- `log_reading` from `lib.rs`: threshold lookup, write-time violation
evaluation, page selection, padding with placeholder entries up to the write
position, write, and length-counter update. -/
def log_reading (s : TempState) (unit_id : Nat)
    (temperature_celsius_x100 : Int) (timestamp : Nat) :
    Except TempError TempState :=
  match get_threshold s unit_id with
  | none => .error .ThresholdNotFound
  | some threshold =>
    let is_violation : Bool :=
      temperature_celsius_x100 < threshold.min_celsius_x100 ∨
        threshold.max_celsius_x100 < temperature_celsius_x100
    let reading : TemperatureReading :=
      ⟨temperature_celsius_x100, timestamp, is_violation⟩
    let (page_num, position) := findWritePosD s unit_id
    let page := get_temp_page s unit_id page_num
    let page := page ++ List.replicate (position - page.length)
      TemperatureReading.placeholder
    let page :=
      if page.length = position then page ++ [reading]
      else page.set position reading
    let s := set_temp_page s unit_id page_num page
    .ok (set_temp_page_len s unit_id page_num (position + 1))

/-- The page-scan loop of `get_readings` from `lib.rs`: stop at the first
zero-length page past page 0, skip a zero-length page 0, and read only the
first `page_len` slots of each page (missing slots default to the
placeholder).  The Rust loop is unbounded; fuel is threaded here and
`readLoop_paged` below shows the fuel `get_readings` uses always suffices on
reachable stores. -/
def readLoop (s : TempState) (unit_id : Nat) :
    Nat → Nat → Option (List TemperatureReading)
  | 0, _ => none
  | fuel + 1, page_num =>
    let page_len := get_temp_page_len s unit_id page_num
    if page_len = 0 ∧ 0 < page_num then some []
    else if page_len = 0 then readLoop s unit_id fuel (page_num + 1)
    else
      let page := get_temp_page s unit_id page_num
      let entries := (List.range page_len).map
        (fun i => (page.get? i).getD TemperatureReading.placeholder)
      (readLoop s unit_id fuel (page_num + 1)).map (fun rest => entries ++ rest)

/-- The page-scan loop of `get_violations` from `lib.rs`: identical page
iteration, pushing only readings whose stored violation flag is set. -/
def violLoop (s : TempState) (unit_id : Nat) :
    Nat → Nat → Option (List TemperatureReading)
  | 0, _ => none
  | fuel + 1, page_num =>
    let page_len := get_temp_page_len s unit_id page_num
    if page_len = 0 ∧ 0 < page_num then some []
    else if page_len = 0 then violLoop s unit_id fuel (page_num + 1)
    else
      let page := get_temp_page s unit_id page_num
      let entries := ((List.range page_len).map
        (fun i => (page.get? i).getD TemperatureReading.placeholder)).filter
        (fun reading => reading.is_violation)
      (violLoop s unit_id fuel (page_num + 1)).map (fun rest => entries ++ rest)

/-- `get_readings` from `lib.rs` (the source function always returns `Ok`, so
the result is modelled as the plain list).  `readLoop_paged` below shows the
scan returns `some` on every reachable store, so the `[]` fallback never
decides a reachable result. -/
def get_readings (s : TempState) (unit_id : Nat) : List TemperatureReading :=
  (readLoop s unit_id (s.pageLens.length + 2) 0).getD []

/-- `get_violations` from `lib.rs`, modelled like `get_readings`. -/
def get_violations (s : TempState) (unit_id : Nat) : List TemperatureReading :=
  (violLoop s unit_id (s.pageLens.length + 2) 0).getD []

/-! ## Reachable temperature-store states and the paging invariant -/

/-- States of the temperature contract reachable from an initialized empty
store by `set_threshold` and successful `log_reading` calls (failed calls
leave the state untouched). -/
inductive TempReach : TempState → Prop
  | init (admin : Nat) : TempReach ⟨admin, [], [], []⟩
  | set_thr {s s' : TempState} (admin unit_id : Nat) (mn mx : Int) :
      TempReach s → set_threshold s admin unit_id mn mx = .ok s' → TempReach s'
  | log {s s' : TempState} (unit_id : Nat) (t : Int) (ts : Nat) :
      TempReach s → log_reading s unit_id t ts = .ok s' → TempReach s'

/-- The page store of `unit_id` holds exactly the reading sequence `rs`:
page `p` stores the `p`-th capacity-sized slice of `rs`, and its stored
length counter is that slice's length. -/
def PagedOf (s : TempState) (unit_id : Nat) (rs : List TemperatureReading) : Prop :=
  (∀ p, get_temp_page_len s unit_id p = min PAGE_SIZE (rs.length - PAGE_SIZE * p)) ∧
  (∀ p, get_temp_page s unit_id p = (rs.drop (PAGE_SIZE * p)).take PAGE_SIZE)

/-- Every unit's page store is a faithful paging of some reading sequence. -/
def StrongInv (s : TempState) : Prop :=
  ∀ unit_id, ∃ rs, PagedOf s unit_id rs

/-- The page-length invariant of spec §3, per unit: all pages before the last
written page are exactly at capacity, the last written page holds between 1
and capacity entries, and no page beyond it has a non-zero counter. -/
def PageLenInv (s : TempState) (unit_id : Nat) : Prop :=
  (∀ p, get_temp_page_len s unit_id p = 0) ∨
  (∃ last,
    (∀ p, p < last → get_temp_page_len s unit_id p = PAGE_SIZE) ∧
    1 ≤ get_temp_page_len s unit_id last ∧
    get_temp_page_len s unit_id last ≤ PAGE_SIZE ∧
    (∀ p, last < p → get_temp_page_len s unit_id p = 0))

/-! ## Concrete scenarios used by the closed theorems and witnesses -/

/-- Run a list of `log_reading` calls for one unit, stopping at the first
error. -/
def logAll (s : TempState) (unit_id : Nat) :
    List (Int × Nat) → Except TempError TempState
  | [] => .ok s
  | (t, ts) :: rest =>
    match log_reading s unit_id t ts with
    | .error e => .error e
    | .ok s' => logAll s' unit_id rest

/-- Temperature store for unit 42 after `set_threshold` with bounds
200–600. -/
def c4Start : TempState := ⟨0, [(42, ⟨200, 600⟩)], [], []⟩

/-- The 21 logged readings of the §8 scenario: twenty in-range readings
followed by one too-cold reading. -/
def c4Inputs : List (Int × Nat) :=
  ((List.range 20).map (fun i => ((400 : Int), 1000 + i))) ++ [(100, 1020)]

/-- The store after logging the 21 readings (`.getD` is never the taken
branch: the run succeeds, as the closed theorem states). -/
def c4Final : TempState := (logAll c4Start 42 c4Inputs).toOption.getD c4Start

/-- The 21 readings as they must be returned by `get_readings`. -/
def c4Expected : List TemperatureReading :=
  ((List.range 20).map (fun i => ⟨400, 1000 + i, false⟩)) ++ [⟨100, 1020, true⟩]

/-- The store after one in-range reading on top of `c4Start`, used by the
invariant and write-time-evaluation witnesses. -/
def c5WitState : TempState :=
  (log_reading c4Start 42 400 1000).toOption.getD c4Start

/-- The store after tightening unit 42's threshold to 350–360 once a reading
is stored, used by the write-time-evaluation witness. -/
def c6WitState : TempState :=
  (set_threshold c5WitState 0 42 350 360).toOption.getD c5WitState

/-- A demonstration blood unit for the witness states. -/
def demoUnit (id : Nat) (st : BloodStatus) (expiry : Nat) : BloodUnit :=
  ⟨id, .OPositive, 450, 5, none, 10, expiry, st, []⟩

/-- An initialized inventory (admin 7, bank 5 authorized) holding three live
units (1 Available, 2 Delivered, 3 Available) and one clock-expired unit
(4, expiration 50). -/
def invDemo : InvState :=
  { admin := some 7
    authorized_banks := [5]
    counter := 4
    units := [(1, demoUnit 1 .Available 1000000),
              (2, demoUnit 2 .Delivered 1000000),
              (3, demoUnit 3 .Available 1000000),
              (4, demoUnit 4 .Available 50)]
    typeIndex := []
    bankIndex := []
    statusIndex := []
    donorIndex := []
    history := []
    historyCounter := 0
    changeCount := [] }

/-- The inventory state produced by the witness registration. -/
def c8State : InvState :=
  (register_blood invDemo 100 5 .APositive 450 (some 9)).1

/-! # Theorems -/

/-! ## Helper lemmas on the inventory operations -/

theorem add_to_indexes_units (s : InvState) (u : BloodUnit) :
    (add_to_indexes s u).units = s.units := by
  cases hd : u.donor_id <;> simp [add_to_indexes, hd]

/-! ## C1 — the lifecycle transition table -/

/-- C1, counterexample: the claim says `is_valid_transition` accepts exactly
nine ordered pairs, but the function (matching the seven-row table of
`types.rs` and its unit tests) accepts exactly seven, so no nine-pair reading
of the table can be correct. -/
theorem c1_counterexample :
    (allStatusPairs.filter (fun q => is_valid_transition q.1 q.2)).length = 7 ∧
    ¬ (allStatusPairs.filter (fun q => is_valid_transition q.1 q.2)).length = 9 := by
  decide

/-- C1, amended: `is_valid_transition` returns true for exactly the seven
pairs listed in the §4.2 table and false for every other of the 25 possible
ordered pairs; in particular every self-transition is rejected and no pair
whose source is Delivered or Expired is allowed. -/
theorem c1_transition_table :
    (∀ f t, (is_valid_transition f t = true ↔ (f, t) ∈ listedTransitions)) ∧
    (∀ st, is_valid_transition st st = false) ∧
    (∀ f t, f = BloodStatus.Delivered ∨ f = BloodStatus.Expired →
      is_valid_transition f t = false) ∧
    listedTransitions.length = 7 ∧ allStatusPairs.length = 25 := by
  decide

/-- C1, witness: the amended theorem applied at concrete status pairs. -/
theorem c1_transition_table_witness :
    is_valid_transition .Available .Reserved = true ∧
    is_valid_transition .Delivered .Expired = false ∧
    is_valid_transition .Expired .Available = false ∧
    is_valid_transition .Available .Available = false :=
  ⟨(c1_transition_table.1 .Available .Reserved).mpr (by decide),
   c1_transition_table.2.2.1 .Delivered .Expired (Or.inl rfl),
   c1_transition_table.2.2.1 .Expired .Available (Or.inr rfl),
   c1_transition_table.2.1 .Available⟩

/-! ## C9 — payment validation -/

/-- C9: `Payment::validate` succeeds exactly on positive amount, distinct
payer and payee, and an asset distinct from both; each individually violated
clause yields its own specific error. -/
theorem c9_payment_validate (p : Payment) :
    (0 < p.amount ∧ p.payer ≠ p.payee ∧ p.asset ≠ p.payer ∧ p.asset ≠ p.payee →
      p.validate = .ok ()) ∧
    (p.amount ≤ 0 → p.validate = .error .InvalidAmount) ∧
    (0 < p.amount → p.payer = p.payee → p.validate = .error .SamePayerPayee) ∧
    (0 < p.amount → p.payer ≠ p.payee → p.asset = p.payer ∨ p.asset = p.payee →
      p.validate = .error .InvalidAsset) := by
  refine ⟨?_, ?_, ?_, ?_⟩
  · rintro ⟨h1, h2, h3, h4⟩
    have hn : ¬ p.amount ≤ 0 := by omega
    simp [Payment.validate, hn, h2, h3, h4]
  · intro h1
    simp [Payment.validate, h1]
  · intro h1 h2
    have hn : ¬ p.amount ≤ 0 := by omega
    simp [Payment.validate, hn, h2]
  · intro h1 h2 h3
    have hn : ¬ p.amount ≤ 0 := by omega
    simp [Payment.validate, hn, h2, h3]

/-! ## C3 — clock expiry pre-empts the transition check -/

/-- C3: if the stored unit's expiration timestamp has passed at the current
ledger time, `update_status` fails with `BloodUnitExpired` for every
requested new status (in particular for `Expired` itself), before the
transition table is consulted. -/
theorem c3_expired_preempts (s : InvState) (now unit_id : Nat)
    (new_status : BloodStatus) (authorized_by : Nat) (reason : Option Nat)
    (u : BloodUnit)
    (hadmin : s.admin = some authorized_by)
    (hu : get_blood_unit_store s unit_id = some u)
    (hexp : u.is_expired now = true) :
    (update_status s now unit_id new_status authorized_by reason).2.2 =
      .error .BloodUnitExpired := by
  simp [update_status, hadmin, hu, hexp]

/-- C3, witness: unit 4 of `invDemo` expired at time 50; at ledger time 100 a
request to set its status to `Expired` — a legal transition from
`Available` — still fails with `BloodUnitExpired`. -/
theorem c3_expired_preempts_witness :
    (update_status invDemo 100 4 .Expired 7 none).2.2 =
      .error .BloodUnitExpired :=
  c3_expired_preempts invDemo 100 4 .Expired 7 none (demoUnit 4 .Available 50)
    rfl (by decide) (by decide)

/-! ## C7 — errors of `update_status` leave persisted state untouched -/

/-- C7: whenever `update_status` returns an error, the whole persisted state
(unit records, history, counters, all indexes) is returned unchanged; when
the error is `InvalidStatusTransition`, the diagnostic event carrying both
statuses is emitted alongside the error. -/
theorem c7_update_status_error_no_mutation (s : InvState) (now unit_id : Nat)
    (new_status : BloodStatus) (authorized_by : Nat) (reason : Option Nat)
    (e : ContractError)
    (h : (update_status s now unit_id new_status authorized_by reason).2.2 =
      .error e) :
    (update_status s now unit_id new_status authorized_by reason).1 = s ∧
    (e = .InvalidStatusTransition → ∃ old,
      (update_status s now unit_id new_status authorized_by reason).2.1 =
        [InvEvent.invalidTransition unit_id old new_status]) := by
  by_cases h1 : s.admin ≠ some authorized_by
  · refine ⟨by simp [update_status, h1], ?_⟩
    rintro rfl
    simp [update_status, h1] at h
  · cases hu : get_blood_unit_store s unit_id with
    | none =>
      refine ⟨by simp [update_status, h1, hu], ?_⟩
      rintro rfl
      simp [update_status, h1, hu] at h
    | some bu =>
      by_cases hexp : bu.is_expired now
      · refine ⟨by simp [update_status, h1, hu, hexp], ?_⟩
        rintro rfl
        simp [update_status, h1, hu, hexp] at h
      · by_cases htr : is_valid_transition bu.status new_status
        · exfalso
          simp [update_status, h1, hu, hexp, htr] at h
        · refine ⟨by simp [update_status, h1, hu, hexp, htr], ?_⟩
          intro _
          exact ⟨bu.status, by simp [update_status, h1, hu, hexp, htr]⟩

/-- C7, witness: on `invDemo`, a Delivered → Available request for unit 2 is
illegal; the theorem yields the unchanged state and the diagnostic event. -/
theorem c7_update_status_error_no_mutation_witness :
    (update_status invDemo 100 2 .Available 7 none).1 = invDemo ∧
    (ContractError.InvalidStatusTransition = ContractError.InvalidStatusTransition →
      ∃ old, (update_status invDemo 100 2 .Available 7 none).2.1 =
        [InvEvent.invalidTransition 2 old .Available]) :=
  c7_update_status_error_no_mutation invDemo 100 2 .Available 7 none
    .InvalidStatusTransition (by decide)

/-! ## C2 — batch updates are all-or-nothing -/

theorem batch_update_loop_ok_count (now : Nat) (new_status : BloodStatus)
    (authorized_by : Nat) (reason : Option Nat) :
    ∀ (unit_ids : List Nat) (s : InvState) (c : Nat) (evts : List InvEvent)
      (s' : InvState) (evts' : List InvEvent) (n : Nat),
      batch_update_loop s now unit_ids new_status authorized_by reason c evts =
        (s', evts', .ok n) → n = c + unit_ids.length := by
  intro unit_ids
  induction unit_ids with
  | nil =>
    intro s c evts s' evts' n h
    simp only [batch_update_loop, Prod.mk.injEq] at h
    obtain ⟨-, -, h⟩ := h
    obtain rfl := Except.ok.inj h
    simp
  | cons id rest ih =>
    intro s c evts s' evts' n h
    simp only [batch_update_loop] at h
    cases hu : get_blood_unit_store s id with
    | none => simp [hu, Prod.mk.injEq] at h
    | some bu =>
      rw [hu] at h
      by_cases hexp : bu.is_expired now
      · simp [hexp, Prod.mk.injEq] at h
      · simp only [hexp, Bool.false_eq_true, if_false] at h
        by_cases htr : is_valid_transition bu.status new_status
        · simp only [htr, not_true_eq_false, if_false] at h
          have := ih _ _ _ _ _ _ h
          simp [this, List.length_cons]
          omega
        · simp [htr, Prod.mk.injEq] at h

/-- C2: `batch_update_status` is all-or-nothing at invocation level — on any
per-unit validation error the observable state is exactly the pre-call state
(the host rolls the invocation back), and on success the returned count
equals the length of the input ID list. -/
theorem c2_batch_atomicity (s : InvState) (now : Nat) (unit_ids : List Nat)
    (new_status : BloodStatus) (authorized_by : Nat) (reason : Option Nat) :
    (∀ e, (batch_update_status s now unit_ids new_status authorized_by reason).2.2 =
        .error e →
      (batch_update_status s now unit_ids new_status authorized_by reason).1 = s) ∧
    (∀ n, (batch_update_status s now unit_ids new_status authorized_by reason).2.2 =
        .ok n →
      n = unit_ids.length) := by
  unfold batch_update_status
  by_cases h1 : s.admin ≠ some authorized_by
  · simp [h1]
  · rcases hb : batch_update_loop s now unit_ids new_status authorized_by reason 0 []
      with ⟨s', evts, res⟩
    cases res with
    | error e => simp [h1, hb]
    | ok m =>
      simp only [if_neg h1, hb]
      refine ⟨by simp, ?_⟩
      intro n hn
      obtain rfl := Except.ok.inj hn
      have := batch_update_loop_ok_count now new_status authorized_by reason
        unit_ids s 0 [] s' evts m hb
      omega

/-- C2, witness: on `invDemo`, batch `[1, 2, 3] → Reserved` hits unit 2's
illegal Delivered → Reserved transition and leaves the state unchanged, while
batch `[1, 3] → Reserved` succeeds with count 2 = input length. -/
theorem c2_batch_atomicity_witness :
    (batch_update_status invDemo 100 [1, 2, 3] .Reserved 7 none).2.2 =
      .error .InvalidStatusTransition ∧
    (batch_update_status invDemo 100 [1, 2, 3] .Reserved 7 none).1 = invDemo ∧
    (batch_update_status invDemo 100 [1, 3] .Reserved 7 none).2.2 = .ok 2 ∧
    2 = [1, 3].length :=
  ⟨by decide,
   (c2_batch_atomicity invDemo 100 [1, 2, 3] .Reserved 7 none).1
     .InvalidStatusTransition (by decide),
   by decide,
   (c2_batch_atomicity invDemo 100 [1, 3] .Reserved 7 none).2 2 (by decide)⟩

/-! ## C8 — registration read-back -/

/-- C8: after a successful `register_blood`, an immediate `get_blood_unit`
with the returned ID yields a record matching the registration arguments,
with status Available, donation timestamp equal to the ledger time, and
expiration exactly the fixed shelf-life window after donation. -/
theorem c8_register_then_get (s : InvState) (now bank_id : Nat)
    (blood_type : BloodType) (quantity_ml : Nat) (donor_id : Option Nat)
    (s' : InvState) (evts : List InvEvent) (id : Nat)
    (h : register_blood s now bank_id blood_type quantity_ml donor_id =
      (s', evts, .ok id)) :
    ∃ u, get_blood_unit s' id = .ok u ∧ u.bank_id = bank_id ∧
      u.blood_type = blood_type ∧ u.quantity_ml = quantity_ml ∧
      u.donor_id = donor_id ∧ u.status = .Available ∧
      u.donation_timestamp = now ∧
      u.expiration_timestamp - u.donation_timestamp =
        BLOOD_SHELF_LIFE_DAYS * SECONDS_PER_DAY := by
  unfold register_blood at h
  simp only [increment_blood_unit_id] at h
  split at h
  · simp [Prod.mk.injEq] at h
  · split at h
    · simp [Prod.mk.injEq] at h
    · split at h
      · simp [Prod.mk.injEq] at h
      · split at h
        · simp [Prod.mk.injEq] at h
        · split at h
          · simp [Prod.mk.injEq] at h
          · simp only [Prod.mk.injEq] at h
            obtain ⟨rfl, -, h3⟩ := h
            obtain rfl := Except.ok.inj h3
            refine ⟨⟨s.counter + 1, blood_type, quantity_ml, bank_id, donor_id,
                now, now + BLOOD_SHELF_LIFE_DAYS * SECONDS_PER_DAY,
                .Available, []⟩,
              ?_, rfl, rfl, rfl, rfl, rfl, rfl, by simp⟩
            simp [get_blood_unit, get_blood_unit_store, add_to_indexes_units,
              set_blood_unit, alookup_aset_self]

/-- C8, witness: registering a 450 ml A+ unit for bank 5 on `invDemo` at
ledger time 100 and reading ID 5 back. -/
theorem c8_register_then_get_witness :
    ∃ u, get_blood_unit c8State 5 = .ok u ∧ u.bank_id = 5 ∧
      u.blood_type = .APositive ∧ u.quantity_ml = 450 ∧
      u.donor_id = some 9 ∧ u.status = .Available ∧
      u.donation_timestamp = 100 ∧
      u.expiration_timestamp - u.donation_timestamp =
        BLOOD_SHELF_LIFE_DAYS * SECONDS_PER_DAY :=
  c8_register_then_get invDemo 100 5 .APositive 450 (some 9) c8State
    (register_blood invDemo 100 5 .APositive 450 (some 9)).2.1 5 (by decide)

/-! ## Helper lemmas on the temperature page store -/

theorem findWritePos_none (lenOf : Nat → Nat) :
    ∀ fuel start, findWritePos lenOf fuel start = none →
      ∀ p, start ≤ p → p < start + fuel → PAGE_SIZE ≤ lenOf p := by
  intro fuel
  induction fuel with
  | zero => intro start _ p _ hlt; omega
  | succ n ih =>
    intro start h p hsp hp
    simp only [findWritePos] at h
    by_cases h0 : lenOf start = 0 ∧ 0 < start
    · simp [h0] at h
    · rw [if_neg h0] at h
      by_cases h1 : lenOf start < PAGE_SIZE
      · simp [h1] at h
      · rw [if_neg h1] at h
        rcases Nat.eq_or_lt_of_le hsp with heq | hlt
        · subst heq; omega
        · exact ih (start + 1) h p hlt (by omega)

theorem findWritePos_some_spec (lenOf : Nat → Nat) :
    ∀ fuel start pn pos, findWritePos lenOf fuel start = some (pn, pos) →
      start ≤ pn ∧ pos = lenOf pn ∧ lenOf pn < PAGE_SIZE ∧
      ∀ q, start ≤ q → q < pn → PAGE_SIZE ≤ lenOf q := by
  intro fuel
  induction fuel with
  | zero => intro start pn pos h; simp [findWritePos] at h
  | succ f ih =>
    intro start pn pos h
    simp only [findWritePos] at h
    by_cases h0 : lenOf start = 0 ∧ 0 < start
    · rw [if_pos h0] at h
      obtain ⟨rfl, rfl⟩ := Prod.mk.injEq .. |>.mp (Option.some.inj h)
      refine ⟨Nat.le_refl _, by omega, by rw [h0.1]; simp [PAGE_SIZE], ?_⟩
      intro q hq1 hq2; omega
    · rw [if_neg h0] at h
      by_cases h1 : lenOf start < PAGE_SIZE
      · rw [if_pos h1] at h
        obtain ⟨rfl, rfl⟩ := Prod.mk.injEq .. |>.mp (Option.some.inj h)
        exact ⟨Nat.le_refl _, rfl, h1, fun q hq1 hq2 => by omega⟩
      · rw [if_neg h1] at h
        obtain ⟨hle, hpos, hlt, hall⟩ := ih (start + 1) pn pos h
        refine ⟨by omega, hpos, hlt, ?_⟩
        intro q hq1 hq2
        rcases Nat.eq_or_lt_of_le hq1 with heq | hlt2
        · subst heq; omega
        · exact hall q hlt2 hq2

/-- A run of `m` consecutive pages with non-zero stored length counters needs
`m` distinct entries in the length-counter store. -/
theorem nonzero_pages_le (s : TempState) (u start m : Nat)
    (h : ∀ p, p < m → get_temp_page_len s u (start + p) ≠ 0) :
    m ≤ s.pageLens.length := by
  have hsub : ((List.range m).map (fun p => (u, start + p)))
      ⊆ s.pageLens.map Prod.fst := by
    intro x hx
    simp only [List.mem_map, List.mem_range] at hx
    obtain ⟨p, hp, rfl⟩ := hx
    have hz := h p hp
    unfold get_temp_page_len at hz
    cases hl : alookup s.pageLens (u, start + p) with
    | none => rw [hl] at hz; simp at hz
    | some v => exact alookup_mem_keys _ _ _ hl
  have hnd : ((List.range m).map (fun p => (u, start + p))).Nodup :=
    (List.nodup_range m).map (fun a b hab => by
      have h2 := congrArg Prod.snd hab
      simp at h2
      omega)
  have hle := (List.subperm_of_subset hnd hsub).length_le
  simpa using hle

/-- Beyond the stored length counters every page still has its default
length 0, so a zero-length page occurs in any window one wider than the
counter store. -/
theorem exists_zero_page_len (s : TempState) (u start : Nat) :
    ∃ p, start ≤ p ∧ p < start + s.pageLens.length + 1 ∧
      get_temp_page_len s u p = 0 := by
  by_contra hc
  push_neg at hc
  have hle := nonzero_pages_le s u start (s.pageLens.length + 1)
    (fun p hp => hc (start + p) (by omega) (by omega))
  omega

/-- The fuel `findWritePosD` supplies always suffices: the scan returns an
answer, so the `(0, 0)` fallback is never used. -/
theorem findWritePos_total (s : TempState) (u : Nat) :
    ∃ x, findWritePos (get_temp_page_len s u) (s.pageLens.length + 1) 0 = some x := by
  cases hf : findWritePos (get_temp_page_len s u) (s.pageLens.length + 1) 0 with
  | some x => exact ⟨x, rfl⟩
  | none =>
    exfalso
    obtain ⟨p, h0, hlt, hz⟩ := exists_zero_page_len s u 0
    have hge := findWritePos_none _ _ _ hf p h0 (by omega)
    rw [hz] at hge
    simp [PAGE_SIZE] at hge

/-- Reading the first `length` slots of a list, with out-of-range defaults,
returns the list itself. -/
theorem range_map_getq {α : Type} (l : List α) (d : α) :
    (List.range l.length).map (fun i => (l.get? i).getD d) = l := by
  induction l with
  | nil => simp
  | cons a t ih =>
    rw [List.length_cons, List.range_succ_eq_map]
    simp only [List.map_cons, List.map_map, List.get?_cons_zero, Option.getD_some]
    congr 1

theorem pagedOf_init (a u : Nat) : PagedOf ⟨a, [], [], []⟩ u [] := by
  constructor
  · intro p
    simp [get_temp_page_len, alookup]
  · intro p
    simp [get_temp_page, alookup]

theorem set_threshold_ok_fields {s s' : TempState} {a u : Nat} {mn mx : Int}
    (h : set_threshold s a u mn mx = .ok s') :
    s'.pages = s.pages ∧ s'.pageLens = s.pageLens ∧ s'.admin = s.admin := by
  unfold set_threshold at h
  split at h
  · simp at h
  · split at h
    · simp at h
    · obtain rfl := Except.ok.inj h
      exact ⟨rfl, rfl, rfl⟩

/-- The readings scan only consults page contents and length counters. -/
theorem readLoop_congr {s s' : TempState} (hp : s'.pages = s.pages)
    (hl : s'.pageLens = s.pageLens) (u : Nat) :
    ∀ fuel start, readLoop s' u fuel start = readLoop s u fuel start := by
  have hlen : ∀ p, get_temp_page_len s' u p = get_temp_page_len s u p := by
    intro p; unfold get_temp_page_len; rw [hl]
  have hpg : ∀ p, get_temp_page s' u p = get_temp_page s u p := by
    intro p; unfold get_temp_page; rw [hp]
  intro fuel
  induction fuel with
  | zero => intro start; rfl
  | succ f ih =>
    intro start
    simp only [readLoop, hlen, hpg, ih]

/-- The violations scan is the readings scan filtered on the stored
violation flag, page by page. -/
theorem violLoop_eq_filter (s : TempState) (u : Nat) :
    ∀ fuel start, violLoop s u fuel start =
      (readLoop s u fuel start).map (List.filter (fun r => r.is_violation)) := by
  intro fuel
  induction fuel with
  | zero => intro start; rfl
  | succ f ih =>
    intro start
    simp only [violLoop, readLoop]
    by_cases h0 : get_temp_page_len s u start = 0 ∧ 0 < start
    · simp [h0]
    · rw [if_neg h0, if_neg h0]
      by_cases h1 : get_temp_page_len s u start = 0
      · rw [if_pos h1, if_pos h1, ih]
      · rw [if_neg h1, if_neg h1, ih (start + 1)]
        cases hr : readLoop s u f (start + 1) with
        | none => simp
        | some rest => simp [List.filter_append]

/-- On a faithfully paged store, the readings scan returns exactly the tail
of the reading sequence from the start page on, given enough fuel. -/
theorem readLoop_paged {s : TempState} {u : Nat} {rs : List TemperatureReading}
    (hpg : PagedOf s u rs) :
    ∀ fuel start, 1 ≤ fuel →
      rs.length + 2 * PAGE_SIZE ≤ PAGE_SIZE * (start + fuel) →
      readLoop s u fuel start = some (rs.drop (PAGE_SIZE * start)) := by
  intro fuel
  induction fuel with
  | zero => intro start h1 _; omega
  | succ f ih =>
    intro start _ hbound
    simp only [PAGE_SIZE] at hbound ⊢
    have hlen := hpg.1 start
    simp only [PAGE_SIZE] at hlen
    by_cases hns : rs.length ≤ 20 * start
    · have h0 : get_temp_page_len s u start = 0 := by
        rw [hlen]; omega
      by_cases hstart : 0 < start
      · simp only [readLoop]
        rw [if_pos ⟨h0, hstart⟩, List.drop_eq_nil_of_le hns]
      · have hs0 : start = 0 := by omega
        subst hs0
        simp only [readLoop]
        rw [if_neg (by simp [h0])]
        rw [if_pos h0]
        have hf1 : 1 ≤ f := by omega
        have hrec := ih 1 hf1 (by simp only [PAGE_SIZE]; omega)
        simp only [PAGE_SIZE] at hrec
        rw [hrec]
        have hz : rs.length = 0 := by omega
        rw [List.drop_eq_nil_of_le (by omega), List.drop_eq_nil_of_le (by omega)]
    · have hne : get_temp_page_len s u start ≠ 0 := by
        rw [hlen]; omega
      simp only [readLoop]
      rw [if_neg (fun hc => hne hc.1), if_neg hne]
      have hf1 : 1 ≤ f := by omega
      have hrec := ih (start + 1) hf1 (by simp only [PAGE_SIZE]; omega)
      simp only [PAGE_SIZE] at hrec
      rw [hrec]
      have hplen : (get_temp_page s u start).length = get_temp_page_len s u start := by
        rw [hpg.2 start, List.length_take, List.length_drop, hlen]
        simp [PAGE_SIZE]
      have hent : (List.range (get_temp_page_len s u start)).map
          (fun i => ((get_temp_page s u start).get? i).getD
            TemperatureReading.placeholder) = get_temp_page s u start := by
        rw [← hplen]
        exact range_map_getq _ _
      simp only [Option.map_some']
      rw [hent, hpg.2 start]
      simp only [PAGE_SIZE]
      congr 1
      have h2 : List.drop (20 * (start + 1)) rs =
          List.drop 20 (List.drop (20 * start) rs) := by
        rw [List.drop_drop]
        congr 1
      rw [h2, List.take_append_drop]

/-- A faithfully paged sequence fits within the stored length counters. -/
theorem pagedOf_bound {s : TempState} {u : Nat} {rs : List TemperatureReading}
    (hpg : PagedOf s u rs) : rs.length ≤ PAGE_SIZE * s.pageLens.length := by
  rcases Nat.eq_zero_or_pos rs.length with hz | hpos
  · omega
  · have hm : ∀ p, p < (rs.length - 1) / PAGE_SIZE + 1 →
        get_temp_page_len s u (0 + p) ≠ 0 := by
      intro p hp
      rw [Nat.zero_add, hpg.1 p]
      simp [PAGE_SIZE] at hp ⊢
      omega
    have hle := nonzero_pages_le s u 0 _ hm
    simp [PAGE_SIZE] at hle ⊢
    omega

/-- On a faithfully paged store, `get_readings` returns exactly the logged
reading sequence. -/
theorem get_readings_paged {s : TempState} {u : Nat} {rs : List TemperatureReading}
    (hpg : PagedOf s u rs) : get_readings s u = rs := by
  have hb := pagedOf_bound hpg
  unfold get_readings
  rw [readLoop_paged hpg (s.pageLens.length + 2) 0 (by omega)
    (by simp [PAGE_SIZE] at hb ⊢; omega)]
  simp

/-- On a faithfully paged store, the write-position scan lands on the first
non-full page: the slot right after the `rs.length` readings already
stored. -/
theorem findWritePosD_paged {s : TempState} {u : Nat}
    {rs : List TemperatureReading} (hpg : PagedOf s u rs) :
    ∃ pn, findWritePosD s u = (pn, rs.length - PAGE_SIZE * pn) ∧
      PAGE_SIZE * pn ≤ rs.length ∧ rs.length - PAGE_SIZE * pn < PAGE_SIZE := by
  obtain ⟨⟨pn, pos⟩, hfw⟩ := findWritePos_total s u
  obtain ⟨-, hpos, hlt, hall⟩ := findWritePos_some_spec _ _ _ _ _ hfw
  have hlen := hpg.1
  rw [hlen pn] at hpos hlt
  simp only [PAGE_SIZE] at hpos hlt hall hlen
  have h20 : 20 * pn ≤ rs.length := by
    rcases Nat.eq_zero_or_pos pn with rfl | hpn
    · omega
    · have hq := hall (pn - 1) (by omega) (by omega)
      rw [hlen (pn - 1)] at hq
      omega
  refine ⟨pn, ?_, by simp only [PAGE_SIZE]; omega, by simp only [PAGE_SIZE]; omega⟩
  have hposn : pos = rs.length - PAGE_SIZE * pn := by
    simp only [PAGE_SIZE]; omega
  unfold findWritePosD
  rw [hfw, hposn]
  rfl

/-- A successful `log_reading` appends exactly one reading — carrying the
violation flag evaluated against the threshold stored at write time — to the
unit's paged sequence, and touches no other unit's pages and no
thresholds. -/
theorem log_reading_ok_paged {s : TempState} {unit_id : Nat}
    {rs : List TemperatureReading} {t : Int} {ts : Nat}
    {th : TemperatureThreshold} {s' : TempState}
    (hpg : PagedOf s unit_id rs)
    (hth : get_threshold s unit_id = some th)
    (hlog : log_reading s unit_id t ts = .ok s') :
    PagedOf s' unit_id (rs ++
      [⟨t, ts, decide (t < th.min_celsius_x100 ∨ th.max_celsius_x100 < t)⟩]) ∧
    s'.thresholds = s.thresholds ∧
    (∀ u', u' ≠ unit_id →
      (∀ p, get_temp_page_len s' u' p = get_temp_page_len s u' p) ∧
      (∀ p, get_temp_page s' u' p = get_temp_page s u' p)) := by
  obtain ⟨pn, hfwD, h20, hlt⟩ := findWritePosD_paged hpg
  have hpage := hpg.2 pn
  have hplen : (get_temp_page s unit_id pn).length = rs.length - PAGE_SIZE * pn := by
    rw [hpage, List.length_take, List.length_drop]
    simp only [PAGE_SIZE] at *
    omega
  unfold log_reading at hlog
  rw [hth, hfwD] at hlog
  dsimp only at hlog
  simp only [hplen, Nat.sub_self, List.replicate_zero, List.append_nil] at hlog
  rw [if_pos trivial] at hlog
  obtain rfl := Except.ok.inj hlog
  refine ⟨⟨?_, ?_⟩, rfl, ?_⟩
  · -- page length counters of the logged unit
    intro p
    simp only [get_temp_page_len, set_temp_page_len, set_temp_page]
    by_cases hp : p = pn
    · subst hp
      rw [alookup_aset_self]
      simp only [Option.getD_some, List.length_append, List.length_cons,
        List.length_nil, PAGE_SIZE]
      simp only [PAGE_SIZE] at h20 hlt
      omega
    · rw [alookup_aset_ne _ _ _ _ (fun hc => hp (congrArg Prod.snd hc).symm)]
      have hl := hpg.1 p
      simp only [get_temp_page_len] at hl
      rw [hl]
      simp only [List.length_append, List.length_cons, List.length_nil, PAGE_SIZE]
      simp only [PAGE_SIZE] at h20 hlt
      rcases Nat.lt_or_ge p pn with hplt | hpge
      · omega
      · omega
  · -- page contents of the logged unit
    intro p
    simp only [get_temp_page, set_temp_page_len, set_temp_page]
    by_cases hp : p = pn
    · subst hp
      rw [alookup_aset_self]
      simp only [Option.getD_some]
      rw [List.drop_append_eq_append_drop]
      have hz : PAGE_SIZE * p - rs.length = 0 := by
        simp only [PAGE_SIZE] at h20 ⊢; omega
      rw [hz, List.drop_zero]
      rw [List.take_of_length_le (by
        simp only [List.length_append, List.length_drop, List.length_cons,
          List.length_nil, PAGE_SIZE]
        simp only [PAGE_SIZE] at h20 hlt
        omega)]
      have hpage2 : (alookup s.pages (unit_id, p)).getD [] =
          (rs.drop (PAGE_SIZE * p)).take PAGE_SIZE := hpage
      rw [hpage2, List.take_of_length_le (by
        simp only [List.length_drop, PAGE_SIZE]
        simp only [PAGE_SIZE] at h20 hlt
        omega)]
    · rw [alookup_aset_ne _ _ _ _ (fun hc => hp (congrArg Prod.snd hc).symm)]
      have hc := hpg.2 p
      simp only [get_temp_page] at hc
      rw [hc]
      rcases Nat.lt_or_ge p pn with hplt | hpge
      · -- a full page before the write page
        rw [List.drop_append_eq_append_drop]
        have hz : PAGE_SIZE * p - rs.length = 0 := by
          simp only [PAGE_SIZE] at *; omega
        rw [hz, List.drop_zero]
        rw [List.take_append_of_le_length (by
          simp only [List.length_drop, PAGE_SIZE]
          simp only [PAGE_SIZE] at h20 hlt
          omega)]
      · -- a page beyond the write page: both sides empty
        rw [List.drop_eq_nil_of_le (by
            simp only [PAGE_SIZE] at *; omega),
          List.drop_eq_nil_of_le (by
            simp only [List.length_append, List.length_cons, List.length_nil,
              PAGE_SIZE]
            simp only [PAGE_SIZE] at h20 hlt
            omega)]
  · -- other units are untouched
    intro u' hu'
    constructor
    · intro p
      simp only [get_temp_page_len, set_temp_page_len, set_temp_page]
      rw [alookup_aset_ne _ _ _ _ (fun hc => hu' (congrArg Prod.fst hc).symm)]
    · intro p
      simp only [get_temp_page, set_temp_page_len, set_temp_page]
      rw [alookup_aset_ne _ _ _ _ (fun hc => hu' (congrArg Prod.fst hc).symm)]

/-- A successful `log_reading` has a stored threshold for the unit. -/
theorem log_reading_ok_threshold {s s' : TempState} {unit_id : Nat} {t : Int}
    {ts : Nat} (hlog : log_reading s unit_id t ts = .ok s') :
    ∃ th, get_threshold s unit_id = some th := by
  cases hthr : get_threshold s unit_id with
  | none => rw [log_reading, hthr] at hlog; simp at hlog
  | some th => exact ⟨th, rfl⟩

/-- Every reachable temperature store pages each unit's readings
faithfully. -/
theorem tempReach_strongInv {s : TempState} (h : TempReach s) : StrongInv s := by
  induction h with
  | init admin => exact fun u => ⟨[], pagedOf_init admin u⟩
  | set_thr admin unit_id mn mx hr hok ih =>
    intro u'
    obtain ⟨rs, hpg⟩ := ih u'
    obtain ⟨hp, hl, -⟩ := set_threshold_ok_fields hok
    refine ⟨rs, ?_, ?_⟩
    · intro p
      show (alookup _ (u', p)).getD 0 = _
      rw [hl]
      exact hpg.1 p
    · intro p
      show (alookup _ (u', p)).getD [] = _
      rw [hp]
      exact hpg.2 p
  | log unit_id t ts hr hok ih =>
    intro u'
    obtain ⟨th, hth⟩ := log_reading_ok_threshold hok
    obtain ⟨rsu, hpgu⟩ := ih unit_id
    have hstep := log_reading_ok_paged hpgu hth hok
    by_cases hu : u' = unit_id
    · subst hu
      exact ⟨_, hstep.1⟩
    · obtain ⟨rs, hpg⟩ := ih u'
      obtain ⟨hlen, hpage⟩ := hstep.2.2 u' hu
      refine ⟨rs, ?_, ?_⟩
      · intro p
        rw [hlen p]
        exact hpg.1 p
      · intro p
        rw [hpage p]
        exact hpg.2 p

/-! ## C5 — the page-length invariant holds on every reachable store -/

/-- C5: on every store reachable through successful `log_reading` calls (and
threshold updates), every unit's page lengths satisfy the invariant: all
pages before the last written page are exactly at capacity, the last written
page holds between 1 and capacity readings, and no later page has a non-zero
counter. -/
theorem c5_page_length_invariant (s : TempState) (hreach : TempReach s)
    (unit_id : Nat) : PageLenInv s unit_id := by
  obtain ⟨rs, hpg⟩ := tempReach_strongInv hreach unit_id
  rcases Nat.eq_zero_or_pos rs.length with hz | hpos
  · left
    intro p
    rw [hpg.1 p, hz]
    simp
  · right
    refine ⟨(rs.length - 1) / PAGE_SIZE, ?_, ?_, ?_, ?_⟩
    · intro p hp
      rw [hpg.1 p]
      simp only [PAGE_SIZE] at hp ⊢
      omega
    · rw [hpg.1]
      simp only [PAGE_SIZE]
      omega
    · rw [hpg.1]
      simp only [PAGE_SIZE]
      omega
    · intro p hp
      rw [hpg.1 p]
      simp only [PAGE_SIZE] at hp ⊢
      omega

/-- C5, witness: the store holding one logged reading for unit 42 is
reachable, and the invariant holds there. -/
theorem c5_page_length_invariant_witness : PageLenInv c5WitState 42 :=
  c5_page_length_invariant c5WitState
    (@TempReach.log c4Start c5WitState 42 400 1000
      (@TempReach.set_thr ⟨0, [], [], []⟩ c4Start 0 42 200 600
        (TempReach.init 0) (by decide))
      (by decide))
    42

/-! ## C6 — violation flags are evaluated at write time and frozen -/

/-- C6: a reading logged through `log_reading` is stored with violation flag
`temperature < min ∨ max < temperature`, evaluated against the threshold
stored for the unit at the moment of the write; a later `set_threshold` (for
any unit) changes neither any stored reading nor any `get_violations`
result. -/
theorem c6_write_time_evaluation (s : TempState) (unit_id : Nat) (t : Int)
    (ts : Nat) (th : TemperatureThreshold) (s' : TempState)
    (hreach : TempReach s)
    (hth : get_threshold s unit_id = some th)
    (hlog : log_reading s unit_id t ts = .ok s') :
    get_readings s' unit_id = get_readings s unit_id ++
      [⟨t, ts, decide (t < th.min_celsius_x100 ∨ th.max_celsius_x100 < t)⟩] ∧
    (∀ admin u2 mn mx s'', set_threshold s' admin u2 mn mx = .ok s'' →
      ∀ u', get_readings s'' u' = get_readings s' u' ∧
        get_violations s'' u' = get_violations s' u') := by
  obtain ⟨rs, hpg⟩ := tempReach_strongInv hreach unit_id
  have hstep := log_reading_ok_paged hpg hth hlog
  constructor
  · rw [get_readings_paged hstep.1, get_readings_paged hpg]
  · intro admin u2 mn mx s'' hset u'
    obtain ⟨hp, hl, -⟩ := set_threshold_ok_fields hset
    constructor
    · unfold get_readings
      rw [hl, readLoop_congr hp hl]
    · unfold get_violations
      rw [hl, violLoop_eq_filter, violLoop_eq_filter, readLoop_congr hp hl]

/-- C6, witness: logging a 400 (in-range for the 200–600 threshold) reading
appends it with a false violation flag, and re-tightening the threshold to
350–360 afterwards changes neither the stored readings nor the reported
violations. -/
theorem c6_write_time_evaluation_witness :
    get_readings c5WitState 42 = get_readings c4Start 42 ++
      [⟨400, 1000, decide ((400 : Int) < 200 ∨ (600 : Int) < 400)⟩] ∧
    (get_readings c6WitState 42 = get_readings c5WitState 42 ∧
     get_violations c6WitState 42 = get_violations c5WitState 42) :=
  ⟨(c6_write_time_evaluation c4Start 42 400 1000 ⟨200, 600⟩ c5WitState
      (TempReach.set_thr 0 42 200 600 (TempReach.init 0) (by decide))
      (by decide) (by decide)).1,
   (c6_write_time_evaluation c4Start 42 400 1000 ⟨200, 600⟩ c5WitState
      (TempReach.set_thr 0 42 200 600 (TempReach.init 0) (by decide))
      (by decide) (by decide)).2 0 42 350 360 c6WitState (by decide) 42⟩

/-! ## C10 — `get_violations` is the violation-flag filter of `get_readings` -/

/-- C10: for every store and unit, `get_violations` returns exactly the
subsequence of `get_readings` whose stored violation flag is set, in the
same order. -/
theorem c10_violations_filter (s : TempState) (unit_id : Nat) :
    get_violations s unit_id =
      (get_readings s unit_id).filter (fun r => r.is_violation) := by
  unfold get_violations get_readings
  rw [violLoop_eq_filter]
  cases readLoop s unit_id (s.pageLens.length + 2) 0 with
  | none => rfl
  | some l => rfl

/-! ## C4 — the 21-readings paging scenario -/

/-- C4: starting from an initialized store with threshold 200–600 for unit
42, logging 21 readings (twenty in-range, then one too-cold) succeeds; page 0
then has stored length 20 and page 1 stored length 1; `get_readings` returns
exactly the 21 readings in insertion order with no zero-valued placeholder
entry; and `get_violations` returns exactly the 21st reading. -/
theorem c4_paging_scenario :
    set_threshold ⟨0, [], [], []⟩ 0 42 200 600 = .ok c4Start ∧
    logAll c4Start 42 c4Inputs = .ok c4Final ∧
    get_temp_page_len c4Final 42 0 = 20 ∧
    get_temp_page_len c4Final 42 1 = 1 ∧
    get_readings c4Final 42 = c4Expected ∧
    (get_readings c4Final 42).length = 21 ∧
    (get_readings c4Final 42).all
      (fun r => decide (r ≠ TemperatureReading.placeholder)) = true ∧
    get_violations c4Final 42 = [⟨100, 1020, true⟩] := by
  decide

/-- C9, witness: the theorem applied at four concrete payments, one per
clause. -/
theorem c9_payment_validate_witness :
    Payment.validate ⟨1, 1, 1, 2, 5, 3, .Pending, none⟩ = .ok () ∧
    Payment.validate ⟨2, 1, 1, 2, 0, 3, .Pending, none⟩ = .error .InvalidAmount ∧
    Payment.validate ⟨3, 1, 1, 1, 5, 3, .Pending, none⟩ = .error .SamePayerPayee ∧
    Payment.validate ⟨4, 1, 1, 2, 5, 2, .Pending, none⟩ = .error .InvalidAsset :=
  ⟨(c9_payment_validate _).1 (by decide),
   (c9_payment_validate _).2.1 (by decide),
   (c9_payment_validate _).2.2.1 (by decide) rfl,
   (c9_payment_validate _).2.2.2 (by decide) (by decide) (Or.inr rfl)⟩
